import Mathlib

/-!
Verification development for the Forecaster-Chat frontend session/message
synchronization engine.

The embedding models the client-side engine of `src/frontend/src/App.tsx`
(optimistic submission, terminal-result reconciliation, session catalog,
hydration, deletion) and the streaming submit client of
`src/frontend/src/lib/api.ts` (`submitChatMessage`, blank-line framed
event decoding).

JavaScript strings are modelled as `List Char`; JavaScript `Record` maps
are modelled as association lists; `Date.now()` / `new Date().toISOString()`
values are threaded explicitly as parameters; network exchanges are
modelled by an `Except` parameter carrying either the decoded response or
the surfaced error message; `JSON.parse` is a parameter of the decoder.
-/

namespace ForecasterChat

/-- JavaScript strings, modelled as lists of characters. -/
abbrev Str := List Char

/-- Embed a Lean string literal as a `Str`. -/
def str (s : String) : Str := s.data

/-- Decimal rendering of a natural number (JS template `${n}`). -/
def natStr (n : Nat) : Str := (Nat.repr n).data

/-- Model of JavaScript `String.prototype.trim`: strips leading and trailing
whitespace. -/
def trimChars (l : Str) : Str :=
  ((l.dropWhile Char.isWhitespace).reverse.dropWhile Char.isWhitespace).reverse

/-- Association-list lookup, modelling `record[key]` on a JS object used as a
string-keyed map. -/
def mapLookup {α : Type} (m : List (Str × α)) (k : Str) : Option α :=
  match m with
  | [] => none
  | (k2, v) :: rest => if k2 = k then some v else mapLookup rest k

/-- Key update, modelling `{ ...record, [key]: value }`. -/
def mapInsert {α : Type} (m : List (Str × α)) (k : Str) (v : α) : List (Str × α) :=
  m.filter (fun p => decide (p.1 ≠ k)) ++ [(k, v)]

/-- Key removal, modelling `delete record[key]`. -/
def mapErase {α : Type} (m : List (Str × α)) (k : Str) : List (Str × α) :=
  m.filter (fun p => decide (p.1 ≠ k))

/-- The keys of a string-keyed map (`Object.keys`). -/
def keys {α : Type} (m : List (Str × α)) : List Str := m.map Prod.fst

/-- Set-style insertion, modelling `{ ...record, [key]: true }` for a
`Record<string, boolean>` used as a set. -/
def setInsert (l : List Str) (k : Str) : List Str :=
  if k ∈ l then l else l ++ [k]

theorem mapLookup_append {α : Type} (l1 l2 : List (Str × α)) (a : Str) :
    mapLookup (l1 ++ l2) a =
      (match mapLookup l1 a with
       | some v => some v
       | none => mapLookup l2 a) := by
  induction l1 with
  | nil => simp [mapLookup]
  | cons p rest ih =>
    by_cases hp : p.1 = a
    · simp [mapLookup, hp]
    · simpa [mapLookup, hp] using ih

theorem mapLookup_mapErase {α : Type} (m : List (Str × α)) (k a : Str) :
    mapLookup (mapErase m k) a = if a = k then none else mapLookup m a := by
  induction m with
  | nil => simp [mapErase, mapLookup]
  | cons p rest ih =>
    simp only [mapErase, List.filter_cons] at ih ⊢
    by_cases hp : p.1 = k
    · by_cases hak : a = k
      · simpa [hp, hak] using ih
      · have hpa : ¬ p.1 = a := by rw [hp]; exact fun hk => hak hk.symm
        have hka : ¬ k = a := fun hk => hak hk.symm
        simpa [hp, mapLookup, hpa, hak, hka] using ih
    · by_cases hpa : p.1 = a
      · have hak : ¬ a = k := by rw [← hpa]; exact hp
        simp [hp, mapLookup, hpa, hak]
      · simpa [hp, mapLookup, hpa] using ih

theorem mapLookup_mapInsert_self {α : Type} (m : List (Str × α)) (k : Str) (v : α) :
    mapLookup (mapInsert m k v) k = some v := by
  have herase : mapLookup (mapErase m k) k = none := by
    rw [mapLookup_mapErase]; simp
  show mapLookup (mapErase m k ++ [(k, v)]) k = some v
  rw [mapLookup_append, herase]
  simp [mapLookup]

theorem mapLookup_mapInsert_ne {α : Type} (m : List (Str × α)) (k a : Str) (v : α)
    (h : a ≠ k) : mapLookup (mapInsert m k v) a = mapLookup m a := by
  show mapLookup (mapErase m k ++ [(k, v)]) a = mapLookup m a
  rw [mapLookup_append, mapLookup_mapErase, if_neg h]
  have : ¬ k = a := fun hk => h hk.symm
  cases hma : mapLookup m a with
  | none => simp [mapLookup, this]
  | some w => simp

theorem mapErase_of_not_mem {α : Type} (m : List (Str × α)) (k : Str)
    (h : mapLookup m k = none) : mapErase m k = m := by
  induction m with
  | nil => rfl
  | cons p rest ih =>
    by_cases hp : p.1 = k
    · simp [mapLookup, hp] at h
    · simp only [mapLookup, if_neg hp] at h
      simp only [mapErase, List.filter_cons] at ih ⊢
      have hcond : decide (p.1 ≠ k) = true := by simp [hp]
      rw [if_pos hcond, ih h]

theorem keys_mapInsert_of_not_mem {α : Type} (m : List (Str × α)) (k : Str) (v : α)
    (h : mapLookup m k = none) : keys (mapInsert m k v) = keys m ++ [k] := by
  have : mapErase m k = m := mapErase_of_not_mem m k h
  show keys (mapErase m k ++ [(k, v)]) = keys m ++ [k]
  rw [this]
  simp [keys]

theorem mem_keys_mapInsert {α : Type} (m : List (Str × α)) (k a : Str) (v : α) :
    a ∈ keys (mapInsert m k v) ↔ a = k ∨ a ∈ keys m := by
  simp only [keys, mapInsert, List.map_append, List.mem_append, List.mem_map,
    List.mem_filter, List.map_cons, List.map_nil, List.mem_cons,
    List.not_mem_nil, or_false, decide_eq_true_eq]
  constructor
  · rintro (⟨p, ⟨hp, _⟩, rfl⟩ | h)
    · exact Or.inr ⟨p, hp, rfl⟩
    · exact Or.inl h
  · rintro (rfl | ⟨p, hp, rfl⟩)
    · exact Or.inr rfl
    · by_cases hk : p.1 = k
      · exact Or.inr hk
      · exact Or.inl ⟨p, ⟨hp, hk⟩, rfl⟩

theorem mem_keys_mapErase {α : Type} (m : List (Str × α)) (k a : Str) :
    a ∈ keys (mapErase m k) ↔ a ∈ keys m ∧ a ≠ k := by
  simp only [keys, mapErase, List.mem_map, List.mem_filter, decide_eq_true_eq]
  constructor
  · rintro ⟨p, ⟨hp, hne⟩, rfl⟩
    exact ⟨⟨p, hp, rfl⟩, hne⟩
  · rintro ⟨⟨p, hp, rfl⟩, hne⟩
    exact ⟨p, ⟨hp, hne⟩, rfl⟩

theorem mem_setInsert (l : List Str) (k a : Str) :
    a ∈ setInsert l k ↔ a = k ∨ a ∈ l := by
  by_cases h : k ∈ l
  · simp only [setInsert, if_pos h]
    constructor
    · exact Or.inr
    · rintro (rfl | ha)
      · exact h
      · exact ha
  · simp [setInsert, if_neg h, List.mem_append, or_comm]

/-!
## Stream framing (`src/frontend/src/lib/api.ts`, `submitChatMessage`)

The streaming client accumulates text chunks in `buffer`, splits on the
blank-line delimiter `"\n\n"` (`buffer.split("\n\n")`), keeps the final
(possibly incomplete) piece as the new buffer (`segments.pop()`), and
processes every complete segment.
-/

/-- Glue a character onto the first piece of a split (used when the scanned
character is not part of a delimiter). -/
def consHead (c : Char) : List Str → List Str
  | [] => [[c]]
  | seg :: segs => (c :: seg) :: segs

/-- Model of JavaScript `s.split("\n\n")`: greedy left-to-right splitting on
the two-character blank-line delimiter. Always returns a non-empty list. -/
def splitNN : Str → List Str
  | [] => [[]]
  | '\n' :: '\n' :: rest => [] :: splitNN rest
  | c :: rest => consHead c (splitNN rest)

theorem consHead_ne_nil (c : Char) (l : List Str) : consHead c l ≠ [] := by
  cases l <;> simp [consHead]

theorem consHead_nil (c : Char) : consHead c [] = [[c]] := rfl

theorem consHead_cons (c : Char) (seg : Str) (segs : List Str) :
    consHead c (seg :: segs) = (c :: seg) :: segs := rfl

theorem splitNN_nil : splitNN [] = [[]] := rfl

theorem splitNN_cons_cons (rest : Str) :
    splitNN ('\n' :: '\n' :: rest) = [] :: splitNN rest := rfl

theorem splitNN_cons (c : Char) (rest : Str)
    (h : ∀ r, c = '\n' → rest = '\n' :: r → False) :
    splitNN (c :: rest) = consHead c (splitNN rest) := by
  rw [splitNN.eq_def]
  split
  · rename_i heq; exact absurd heq (by simp)
  · rename_i r heq
    rw [List.cons.injEq] at heq
    exact (h r heq.1 heq.2).elim
  · rename_i c2 rest2 hne heq
    rw [List.cons.injEq] at heq
    rw [heq.1, heq.2]

theorem splitNN_ne_nil (s : Str) : splitNN s ≠ [] := by
  induction s using splitNN.induct with
  | case1 => simp [splitNN_nil]
  | case2 rest ih => simp [splitNN_cons_cons]
  | case3 c rest h ih => rw [splitNN_cons c rest h]; exact consHead_ne_nil _ _

theorem getLastD_append_of_ne_nil {α : Type} (l1 l2 : List α) (d : α) (h : l2 ≠ []) :
    (l1 ++ l2).getLastD d = l2.getLastD d := by
  obtain ⟨x, hx⟩ := Option.isSome_iff_exists.mp (List.getLast?_isSome.mpr h)
  rw [List.getLastD_eq_getLast?, List.getLastD_eq_getLast?, List.getLast?_append, hx]
  rfl

theorem splitNN_singleton (s seg : Str) (h : splitNN s = [seg]) : seg = s := by
  induction s using splitNN.induct generalizing seg with
  | case1 =>
    rw [splitNN_nil] at h
    exact (List.cons.injEq .. ▸ h).1.symm
  | case2 rest ih =>
    rw [splitNN_cons_cons] at h
    have := (List.cons.injEq .. ▸ h).2
    exact absurd this (splitNN_ne_nil rest)
  | case3 c rest hg ih =>
    rw [splitNN_cons c rest hg] at h
    cases hs : splitNN rest with
    | nil => exact absurd hs (splitNN_ne_nil rest)
    | cons s0 ss =>
      rw [hs] at h
      simp only [consHead] at h
      have h1 := (List.cons.injEq .. ▸ h).1
      have h2 := (List.cons.injEq .. ▸ h).2
      subst h2
      have := ih s0 hs
      subst this
      rw [← h1]

/-- The central buffering identity behind re-chunking invariance: splitting
`s ++ c` splits `s` first, then re-splits the carried-over final piece of `s`
glued onto `c`. -/
theorem splitNN_append (s c : Str) :
    splitNN (s ++ c) =
      (splitNN s).dropLast ++ splitNN ((splitNN s).getLastD [] ++ c) := by
  induction s using splitNN.induct with
  | case1 => simp [splitNN_nil]
  | case2 rest ih =>
    rw [List.cons_append, List.cons_append, splitNN_cons_cons, splitNN_cons_cons, ih]
    rw [List.dropLast_cons_of_ne_nil (splitNN_ne_nil rest), List.getLastD_cons]
    rw [List.cons_append]
  | case3 ch rest hg ih =>
    cases rest with
    | nil =>
      rw [splitNN_cons ch [] (by intro r hc hr; cases hr)]
      simp [splitNN_nil, consHead]
    | cons r0 rr =>
      have hg2 : ∀ r, ch = '\n' → r0 :: rr ++ c = '\n' :: r → False := by
        intro r hc hr
        have h0 : r0 = '\n' := (List.cons.injEq .. ▸ hr).1
        exact hg rr hc (by rw [h0])
      rw [List.cons_append, splitNN_cons ch (r0 :: rr ++ c) hg2, ih,
        splitNN_cons ch (r0 :: rr) hg]
      cases hs : splitNN (r0 :: rr) with
      | nil => exact absurd hs (splitNN_ne_nil _)
      | cons seg segs =>
        cases segs with
        | nil =>
          have hseg : seg = r0 :: rr := splitNN_singleton _ _ hs
          subst hseg
          simp only [consHead_cons, List.dropLast_single, List.getLastD_cons,
            List.getLastD_nil, List.nil_append, List.cons_append]
          rw [splitNN_cons ch (r0 :: (rr ++ c)) hg2]
        | cons s1 ss =>
          simp only [consHead_cons]
          rw [List.dropLast_cons_of_ne_nil (by simp : s1 :: ss ≠ []),
            List.dropLast_cons_of_ne_nil (by simp : s1 :: ss ≠ [])]
          simp only [List.cons_append, consHead_cons, List.getLastD_cons]

/-!
## Frame decoding (`submitChatMessage` loop body)

Each complete segment is trimmed, must start with the literal `data:`
prefix, has the prefix stripped (`slice(5)`) and re-trimmed, and is then
passed to `JSON.parse`; parse failures, non-object values and unknown
`type` discriminators are skipped. `JSON.parse` itself is external to the
repository and is a parameter `jp` of the decoder.
-/

/-- JSON values as produced by `JSON.parse`. -/
inductive Json where
  | null
  | bool (b : Bool)
  | num (n : Int)
  | str (s : Str)
  | arr (elems : List Json)
  | obj (fields : List (Str × Json))

/-- JavaScript truthiness of a parsed JSON value (`!parsed`,
`event.payload` and `Boolean(event.created_new)` checks). -/
def jsTruthy : Json → Bool
  | .null => false
  | .bool b => b
  | .num n => decide (n ≠ 0)
  | .str s => decide (s ≠ [])
  | .arr _ => true
  | .obj _ => true

/-- `typeof parsed === "object"` for a non-null parsed value: true exactly
for objects and arrays. -/
def isObjectLike : Json → Bool
  | .obj _ => true
  | .arr _ => true
  | _ => false

/-- Property access `event.key` on a parsed value (returns `undefined`,
i.e. `none`, for arrays and scalars). -/
def getField (j : Json) (key : Str) : Option Json :=
  match j with
  | .obj fields => mapLookup fields key
  | _ => none

/-- Truthiness of a possibly-absent property. -/
def jsTruthyOpt : Option Json → Bool
  | none => false
  | some j => jsTruthy j

/-- The callback-visible events of the stream: `onProgress` and
`onSession` invocations, in order. -/
inductive StreamEvent where
  | progress (step : Str)
  | session (sessionId : Str) (title : Str) (createdNew : Bool)

/-- Decoder state across reads: the carry buffer, the callbacks fired so
far, and the last `result` payload seen (`finalPayload`). -/
structure DecState where
  buffer : Str
  events : List StreamEvent
  finalPayload : Option Json

/-- Initial decoder state (`buffer = ""`, `finalPayload = null`). -/
def initDecState : DecState := { buffer := [], events := [], finalPayload := none }

/-- The body of `for (const segment of segments)`: classify one complete
segment and update the decoder state. Malformed input at any stage
(`continue` in the source) leaves the state unchanged. -/
def processSegment (jp : Str → Option Json) (st : DecState) (seg : Str) : DecState :=
  let trimmed := trimChars seg
  if trimmed.take 5 = str "data:" then
    let jsonPayload := trimChars (trimmed.drop 5)
    if jsonPayload = [] then st
    else
      match jp jsonPayload with
      | none => st
      | some parsed =>
        if jsTruthy parsed && isObjectLike parsed then
          match getField parsed (str "type") with
          | some (.str t) =>
            if t = str "progress" then
              match getField parsed (str "step") with
              | some (.str s) => { st with events := st.events ++ [.progress s] }
              | _ => st
            else if t = str "session" then
              match getField parsed (str "session_id") with
              | some (.str sid) =>
                let title := match getField parsed (str "title") with
                  | some (.str ti) => ti
                  | _ => []
                { st with events :=
                    st.events ++ [.session sid title (jsTruthyOpt (getField parsed (str "created_new")))] }
              | _ => st
            else if t = str "result" then
              match getField parsed (str "payload") with
              | some p => if jsTruthy p then { st with finalPayload := some p } else st
              | none => st
            else st
          | _ => st
        else st
  else st

/-- One iteration of the read loop: append the chunk to the buffer, split on
the blank-line delimiter, keep the final piece as the new buffer
(`segments.pop()`), and process every complete segment. -/
def feedChunk (jp : Str → Option Json) (st : DecState) (chunk : Str) : DecState :=
  let segments := splitNN (st.buffer ++ chunk)
  let toProcess := segments.dropLast
  toProcess.foldl (processSegment jp) { st with buffer := segments.getLastD [] }

/-- The whole read loop over a finite sequence of chunks. -/
def decodeChunks (jp : Str → Option Json) (chunks : List Str) : DecState :=
  chunks.foldl (feedChunk jp) initDecState

/-- Errors surfaced by `submitChatMessage` after the loop: the stream ended
without a decoded `result` frame. -/
inductive SubmitError where
  | streamIncomplete
deriving DecidableEq

/-- The value of `submitChatMessage` as a function of the decoded stream:
the last `result` payload, or `StreamIncomplete` if none was decoded. -/
def submitDecode (jp : Str → Option Json) (chunks : List Str) : Except SubmitError Json :=
  match (decodeChunks jp chunks).finalPayload with
  | some p => .ok p
  | none => .error .streamIncomplete

/-- The complete segments the decoder processes, as a function of the full
concatenated stream text: everything before the last delimiter. -/
def processedSegments (chunks : List Str) : List Str :=
  (splitNN chunks.flatten).dropLast

theorem processSegment_buffer (jp : Str → Option Json) (st : DecState) (seg : Str) :
    (processSegment jp st seg).buffer = st.buffer := by
  simp only [processSegment]
  repeat' split
  all_goals rfl

theorem processSegment_set_buffer (jp : Str → Option Json) (st : DecState) (seg : Str)
    (b : Str) :
    processSegment jp { st with buffer := b } seg = { processSegment jp st seg with buffer := b } := by
  simp only [processSegment]
  repeat' split
  all_goals rfl

theorem foldl_processSegment_buffer (jp : Str → Option Json) (segs : List Str)
    (st : DecState) :
    (segs.foldl (processSegment jp) st).buffer = st.buffer := by
  induction segs generalizing st with
  | nil => rfl
  | cons s rest ih => rw [List.foldl_cons, ih, processSegment_buffer]

theorem foldl_processSegment_set_buffer (jp : Str → Option Json) (segs : List Str)
    (st : DecState) (b : Str) :
    segs.foldl (processSegment jp) { st with buffer := b }
      = { segs.foldl (processSegment jp) st with buffer := b } := by
  induction segs generalizing st with
  | nil => rfl
  | cons s rest ih =>
    rw [List.foldl_cons, List.foldl_cons, processSegment_set_buffer, ih]

theorem feedChunk_eq (jp : Str → Option Json) (st : DecState) (c : Str) :
    feedChunk jp st c =
      { List.foldl (processSegment jp) st (splitNN (st.buffer ++ c)).dropLast with
        buffer := (splitNN (st.buffer ++ c)).getLastD [] } := by
  unfold feedChunk
  rw [foldl_processSegment_set_buffer]

/-- Feeding two chunks one after the other is the same as feeding their
concatenation: the carry buffer makes the decoder insensitive to where the
stream is cut. -/
theorem feedChunk_append (jp : Str → Option Json) (st : DecState) (c1 c2 : Str) :
    feedChunk jp (feedChunk jp st c1) c2 = feedChunk jp st (c1 ++ c2) := by
  have hsplit : splitNN (st.buffer ++ (c1 ++ c2))
      = (splitNN (st.buffer ++ c1)).dropLast
        ++ splitNN ((splitNN (st.buffer ++ c1)).getLastD [] ++ c2) := by
    rw [← List.append_assoc, splitNN_append (st.buffer ++ c1) c2]
  have hne : splitNN ((splitNN (st.buffer ++ c1)).getLastD [] ++ c2) ≠ [] :=
    splitNN_ne_nil _
  rw [feedChunk_eq jp st c1, feedChunk_eq jp _ c2, feedChunk_eq jp st (c1 ++ c2)]
  simp only [hsplit, List.dropLast_append_of_ne_nil _ hne,
    getLastD_append_of_ne_nil _ _ _ hne, List.foldl_append,
    foldl_processSegment_set_buffer]

theorem foldl_feedChunk_flatten (jp : Str → Option Json) (rest : List Str)
    (st : DecState) (c : Str) :
    (c :: rest).foldl (feedChunk jp) st = feedChunk jp st (c :: rest).flatten := by
  induction rest generalizing st c with
  | nil => simp [List.flatten]
  | cons r rrest ih =>
    rw [List.foldl_cons, ih (feedChunk jp st c) r, feedChunk_append]
    simp [List.flatten]

theorem decodeChunks_flatten (jp : Str → Option Json) (chunks : List Str) :
    decodeChunks jp chunks = decodeChunks jp [chunks.flatten] := by
  cases chunks with
  | nil => rfl
  | cons c rest =>
    show (c :: rest).foldl (feedChunk jp) initDecState
      = [((c :: rest).flatten)].foldl (feedChunk jp) initDecState
    rw [foldl_feedChunk_flatten]
    rfl

/-- The per-segment effect of the loop body: a fresh-state run of the
segment determines the appended events and the payload override. -/
def segEvents (jp : Str → Option Json) (seg : Str) : List StreamEvent :=
  (processSegment jp initDecState seg).events

/-- The payload a single segment contributes (its decoded `result` payload,
if any). -/
def segPayload (jp : Str → Option Json) (seg : Str) : Option Json :=
  (processSegment jp initDecState seg).finalPayload

theorem processSegment_eq (jp : Str → Option Json) (st : DecState) (seg : Str) :
    processSegment jp st seg =
      { buffer := st.buffer,
        events := st.events ++ segEvents jp seg,
        finalPayload := (segPayload jp seg).or st.finalPayload } := by
  simp only [processSegment, segEvents, segPayload, initDecState]
  repeat' split
  all_goals simp_all

/-- Reference fold: payload of the last `result`-classified segment of a
segment list (`none` if no segment carries one). -/
def lastPayload (jp : Str → Option Json) (segs : List Str) : Option Json :=
  segs.foldl (fun acc seg => (segPayload jp seg).or acc) none

theorem foldl_or_shift (jp : Str → Option Json) (segs : List Str) (acc : Option Json) :
    segs.foldl (fun a seg => (segPayload jp seg).or a) acc
      = (lastPayload jp segs).or acc := by
  induction segs generalizing acc with
  | nil => simp [lastPayload]
  | cons s rest ih =>
    show rest.foldl _ ((segPayload jp s).or acc) = (lastPayload jp (s :: rest)).or acc
    rw [ih ((segPayload jp s).or acc)]
    show _ = ((s :: rest).foldl (fun a seg => (segPayload jp seg).or a) none).or acc
    rw [List.foldl_cons, ih ((segPayload jp s).or none)]
    rw [Option.or_assoc, Option.or_assoc, Option.none_or]

theorem foldl_processSegment_finalPayload (jp : Str → Option Json) (segs : List Str)
    (st : DecState) :
    (segs.foldl (processSegment jp) st).finalPayload
      = (lastPayload jp segs).or st.finalPayload := by
  induction segs generalizing st with
  | nil => simp [lastPayload]
  | cons s rest ih =>
    rw [List.foldl_cons, ih (processSegment jp st s), processSegment_eq]
    show (lastPayload jp rest).or ((segPayload jp s).or st.finalPayload) = _
    rw [← Option.or_assoc]
    show ((lastPayload jp rest).or (segPayload jp s)).or st.finalPayload
      = (lastPayload jp (s :: rest)).or st.finalPayload
    have hcons : lastPayload jp (s :: rest) = (lastPayload jp rest).or (segPayload jp s) := by
      show List.foldl (fun a seg => (segPayload jp seg).or a) none (s :: rest) = _
      rw [List.foldl_cons, foldl_or_shift, Option.or_none]
    rw [hcons]

theorem decodeChunks_finalPayload (jp : Str → Option Json) (chunks : List Str) :
    (decodeChunks jp chunks).finalPayload = lastPayload jp (processedSegments chunks) := by
  rw [decodeChunks_flatten]
  show (feedChunk jp initDecState chunks.flatten).finalPayload = _
  rw [feedChunk_eq]
  show (List.foldl (processSegment jp) initDecState
    (splitNN (initDecState.buffer ++ chunks.flatten)).dropLast).finalPayload = _
  rw [foldl_processSegment_finalPayload]
  show (lastPayload jp (splitNN ([] ++ chunks.flatten)).dropLast).or none = _
  rw [List.nil_append, Option.or_none]
  rfl

/-!
## Data model (`src/frontend/src/types/chat.ts` usage and `App.tsx`)

Opaque `Record<string, unknown>` payloads (`raw_payload`,
`extraction_result`, `chronos_response`) are carried by the engine without
interpretation and are modelled as uninterpreted raw strings.
-/

inductive MessageRole where
  | user
  | assistant
  | tool
deriving DecidableEq

structure MessageDTO where
  id : Str
  role : MessageRole
  content : Option Str
  raw_payload : Option Str
  sequence_index : Int
  created_at : Str
deriving DecidableEq

structure UploadArtifactDTO where
  id : Str
  session_id : Str
  message_id : Option Str
  original_filename : Str
  stored_path : Str
  mime_type : Option Str
  size_bytes : Option Int
  extraction_status : Str
  extraction_result : Option Str
  created_at : Str
deriving DecidableEq

/-- The decoded terminal payload of a submission (`ChatTurnResponse`);
`session_title` is read by `App.tsx` from the same payload. -/
structure ChatTurnResponse where
  session_id : Str
  created_new_session : Bool
  session_title : Option Str
  user_message : MessageDTO
  assistant_message : MessageDTO
  tool_messages : List MessageDTO
  uploads : List UploadArtifactDTO
  forecast_job_id : Option Str
  chronos_response : Option Str
deriving DecidableEq

/-- The decoded body of `GET /chat/session/{id}` as consumed by
`hydrateSession`. -/
structure SessionDetailResponse where
  session_title : Option Str
  messages : List MessageDTO
  uploads : List UploadArtifactDTO
  created_at : Option Str
  updated_at : Option Str
deriving DecidableEq

/-- Frontend message record (`ChatMessage` in `message-list.tsx`); the
`pending` flag is absent (`undefined`, i.e. `false`) unless set
optimistically. -/
structure ChatMessage where
  id : Str
  role : MessageRole
  content : Str
  rawPayload : Option Str
  createdAt : Str
  pending : Bool
  uploads : List UploadArtifactDTO
deriving DecidableEq

/-- Frontend session record (`ChatSession` in `App.tsx`). -/
structure ChatSession where
  id : Str
  title : Str
  messages : List ChatMessage
  uploads : List UploadArtifactDTO
  chronosResponse : Option Str
  forecastJobId : Option Str
  lastUpdated : Str
  createdAt : Str
  isHydrated : Bool
deriving DecidableEq

/-- A pending file attachment (`File`): the engine reads only `name` and
`type`. -/
structure FileMeta where
  name : Str
  type : Str
deriving DecidableEq

/-- The React component state of `App` that the engine mutates. -/
structure AppState where
  sessions : List (Str × ChatSession)
  sessionOrder : List Str
  selectedSessionId : Option Str
  hydratingSessions : List Str
  deletingSessions : List Str
  sessionsLoading : Bool
  messageInput : Str
  pendingFiles : List FileMeta
  error : Option Str
  isSubmitting : Bool
deriving DecidableEq

/-- The initial component state. -/
def emptyAppState : AppState :=
  { sessions := [], sessionOrder := [], selectedSessionId := none,
    hydratingSessions := [], deletingSessions := [], sessionsLoading := true,
    messageInput := [], pendingFiles := [], error := none, isSubmitting := false }

/-- `toChatMessage` (`App.tsx`): convert a DTO, attaching the uploads whose
`message_id` matches. -/
def toChatMessage (dto : MessageDTO) (allUploads : List UploadArtifactDTO) : ChatMessage :=
  { id := dto.id, role := dto.role, content := dto.content.getD [],
    rawPayload := dto.raw_payload, createdAt := dto.created_at, pending := false,
    uploads := allUploads.filter (fun u => decide (u.message_id = some dto.id)) }

/-- `deriveSessionTitle` (`App.tsx`): title from the latest content if its
trim is non-empty (truncated to 48 characters with an ellipsis), else from
the upload count, else the default. `if (latestContent)` is JS truthiness:
false for `undefined` and for the empty string. -/
def deriveSessionTitle (latestContent : Option Str) (uploads : List UploadArtifactDTO) : Str :=
  let fromContent : Option Str :=
    match latestContent with
    | some c =>
      if c ≠ [] then
        let trimmed := trimChars c
        if trimmed.length > 0 then
          some (trimmed.take 48 ++ (if trimmed.length > 48 then str "…" else []))
        else none
      else none
    | none => none
  match fromContent with
  | some t => t
  | none =>
    if uploads.length > 0 then
      str "Uploaded " ++ natStr uploads.length ++ str " file"
        ++ (if uploads.length > 1 then str "s" else [])
    else str "New conversation"

/-!
## `ingestResponse` (`App.tsx` lines 288–337)
-/

/-- The uploads attached to the user message of the response
(`response.uploads.filter(u => u.message_id === response.user_message.id)`). -/
def userUploadsOf (resp : ChatTurnResponse) : List UploadArtifactDTO :=
  resp.uploads.filter (fun u => decide (u.message_id = some resp.user_message.id))

/-- The committed message bundle of a terminal payload, in stream order:
user message, tool messages, assistant message. -/
def messageBundle (resp : ChatTurnResponse) : List ChatMessage :=
  toChatMessage resp.user_message (userUploadsOf resp)
    :: (resp.tool_messages.map (fun m => toChatMessage m [])
        ++ [toChatMessage resp.assistant_message []])

/-- The `original` binding of `ingestResponse`: the record under
`originalSessionId`, looked up before any deletion (`originalSessionId ?
nextSessions[originalSessionId] : undefined`; an empty string is falsy). -/
def ingestOriginal (sessions : List (Str × ChatSession)) (orig : Option Str) :
    Option ChatSession :=
  match orig with
  | some o => if o ≠ [] then mapLookup sessions o else none
  | none => none

/-- The sessions map after the conditional
`delete nextSessions[originalSessionId]`
(performed when `originalSessionId && originalSessionId !== sessionId`). -/
def ingestAfterDelete (sessions : List (Str × ChatSession)) (sid : Str)
    (orig : Option Str) : List (Str × ChatSession) :=
  match orig with
  | some o => if o ≠ [] ∧ o ≠ sid then mapErase sessions o else sessions
  | none => sessions

/-- The `existing` binding of `ingestResponse`:
`nextSessions[sessionId] ?? original`. -/
def ingestExisting (sessions : List (Str × ChatSession)) (sid : Str)
    (orig : Option Str) : Option ChatSession :=
  match mapLookup (ingestAfterDelete sessions sid orig) sid with
  | some s => some s
  | none => ingestOriginal sessions orig

/-- The session record `ingestResponse` writes under the canonical id:
title resolution, pending-message removal, bundle append, upload/metadata
overwrite, `createdAt` migration. -/
def ingestNewSession (st : AppState) (resp : ChatTurnResponse) (orig : Option Str)
    (nowIso : Str) : ChatSession :=
  let sid := resp.session_id
  let existing := ingestExisting st.sessions sid orig
  let fallbackTitle := deriveSessionTitle resp.user_message.content resp.uploads
  let sessionTitle :=
    match resp.session_title with
    | some t => t
    | none =>
      match existing with
      | some e => e.title
      | none => fallbackTitle
  let committedMessages :=
    match existing with
    | some e => e.messages.filter (fun m => ! m.pending)
    | none => []
  { id := sid,
    title := sessionTitle,
    messages := committedMessages ++ messageBundle resp,
    uploads := resp.uploads,
    chronosResponse :=
      match resp.chronos_response with
      | some c => some c
      | none => existing.bind (fun e => e.chronosResponse),
    forecastJobId :=
      match resp.forecast_job_id with
      | some f => some f
      | none => existing.bind (fun e => e.forecastJobId),
    lastUpdated := nowIso,
    createdAt :=
      match existing with
      | some e => e.createdAt
      | none => nowIso,
    isHydrated := true }

/-- `ingestResponse` (`App.tsx`): commit a terminal payload into the
catalog, dropping pending messages, migrating away from the provisional
id, reordering to front and selecting the canonical session. -/
def ingestResponse (st : AppState) (resp : ChatTurnResponse) (orig : Option Str)
    (nowIso : Str) : AppState :=
  let sid := resp.session_id
  let nextSessions := ingestAfterDelete st.sessions sid orig
  { st with
    sessions := mapInsert nextSessions sid (ingestNewSession st resp orig nowIso),
    sessionOrder :=
      sid :: st.sessionOrder.filter
        (fun id => decide (id ≠ sid)
          && (match orig with
              | some o => decide (id ≠ o)
              | none => true)),
    selectedSessionId := some sid }

/-!
## `handleSubmit` (`App.tsx` lines 208–286)
-/

/-- The `Date.now()` / `new Date().toISOString()` values minted during one
submission, threaded explicitly. -/
structure SubmitEnv where
  optimisticMsgId : Str
  tempSessionId : Str
  optimisticNowIso : Str
  nowIso : Str
  ingestNowIso : Str
deriving DecidableEq

/-- The `optimisticContent` binding: trimmed text, else an upload
placeholder, else `"(no prompt)"`. -/
def optimisticContent (st : AppState) : Str :=
  let trimmedMessage := trimChars st.messageInput
  if trimmedMessage ≠ [] then trimmedMessage
  else if st.pendingFiles.length ≠ 0 then
    str "Uploaded " ++ natStr st.pendingFiles.length ++ str " file(s)"
  else str "(no prompt)"

/-- The provisional user message (`optimisticMessage` in `handleSubmit`),
flagged `pending = true`. -/
def optimisticMessage (st : AppState) (env : SubmitEnv) : ChatMessage :=
  { id := env.optimisticMsgId, role := .user, content := optimisticContent st,
    rawPayload := none, createdAt := env.optimisticNowIso, pending := true,
    uploads := st.pendingFiles.map (fun f =>
      { id := str "temp-" ++ f.name, session_id := [], message_id := none,
        original_filename := f.name, stored_path := [], mime_type := none,
        size_bytes := none, extraction_status := str "pending",
        extraction_result := none, created_at := env.optimisticNowIso }) }

/-- `selectedSessionId ?? temp-...`: the id the provisional state is keyed
under. -/
def provisionalSessionId (st : AppState) (env : SubmitEnv) : Str :=
  st.selectedSessionId.getD env.tempSessionId

/-- The `handleSubmit` validation predicate:
`!messageInput.trim() && pendingFiles.length === 0`. -/
abbrev validationFails (st : AppState) : Prop :=
  trimChars st.messageInput = [] ∧ st.pendingFiles = []

/-- The surfaced validation message. -/
def validationErrorMsg : Str := str "Add a prompt or at least one file before sending."

/-- The provisional session created when no session is selected
(`handleSubmit`, create branch of the `setSessions` updater). -/
def provisionalSession (st : AppState) (env : SubmitEnv) : ChatSession :=
  let pid := provisionalSessionId st env
  let fallbackTitle := deriveSessionTitle (some (trimChars st.messageInput)) []
  { id := pid,
    title := if fallbackTitle = [] then str "New conversation" else fallbackTitle,
    messages := [optimisticMessage st env], uploads := [], chronosResponse := none,
    forecastJobId := none, lastUpdated := env.nowIso, createdAt := env.nowIso,
    isHydrated := false }

/-- The optimistic phase of `handleSubmit`: insert the provisional message
(and, if needed, a provisional session), move the session to the front,
select it, clear the error and mark submitting. -/
def submitOptimistic (st : AppState) (env : SubmitEnv) : AppState :=
  let pid := provisionalSessionId st env
  let msg := optimisticMessage st env
  let sessions2 :=
    match mapLookup st.sessions pid with
    | some existing =>
      mapInsert st.sessions pid
        { existing with messages := existing.messages ++ [msg], lastUpdated := env.nowIso }
    | none =>
      mapInsert st.sessions pid (provisionalSession st env)
  { st with
    sessions := sessions2,
    sessionOrder := pid :: st.sessionOrder.filter (fun id => decide (id ≠ pid)),
    selectedSessionId :=
      match st.selectedSessionId with
      | none => some pid
      | some s => some s,
    isSubmitting := true,
    error := none }

/-- `handleSubmit`: validation, optimistic phase, network exchange
(modelled by `net`), then either `ingestResponse` on the decoded payload
or an error message in the catch branch. -/
def handleSubmit (st : AppState) (env : SubmitEnv) (net : Except Str ChatTurnResponse) :
    AppState :=
  if validationFails st then { st with error := some validationErrorMsg }
  else
    let st1 := submitOptimistic st env
    match net with
    | .ok resp =>
      let st2 := ingestResponse st1 resp (some (provisionalSessionId st env)) env.ingestNowIso
      { st2 with messageInput := [], pendingFiles := [], isSubmitting := false }
    | .error msg => { st1 with error := some msg, isSubmitting := false }

/-!
## `handleDeleteSession` (`App.tsx` lines 156–196) and
`hydrateSession` (`App.tsx` lines 80–119)
-/

/-- `handleDeleteSession`: after confirmation, issue the DELETE (modelled
by `net`); on success drop the session from the catalog, the ordering and
the hydration set, and repair the selection. -/
def handleDeleteSession (st : AppState) (sessionId : Str) (confirmed : Bool)
    (net : Except Str Unit) : AppState :=
  if sessionId = [] then st
  else if ¬ confirmed then st
  else
    let stA :=
      { st with
        deletingSessions := setInsert st.deletingSessions sessionId,
        error := none }
    match net with
    | .ok _ =>
      let sessions2 := mapErase stA.sessions sessionId
      let filteredOrder := stA.sessionOrder.filter (fun id => decide (id ≠ sessionId))
      let wasSelected := stA.selectedSessionId = some sessionId
      let stB :=
        { stA with
          sessions := sessions2,
          sessionOrder := filteredOrder,
          selectedSessionId :=
            if wasSelected then filteredOrder.head? else stA.selectedSessionId,
          messageInput := if wasSelected then [] else stA.messageInput,
          pendingFiles := if wasSelected then [] else stA.pendingFiles,
          hydratingSessions :=
            stA.hydratingSessions.filter (fun id => decide (id ≠ sessionId)) }
      { stB with
        deletingSessions := stB.deletingSessions.filter (fun id => decide (id ≠ sessionId)) }
    | .error msg =>
      { stA with
        error := some msg,
        deletingSessions := stA.deletingSessions.filter (fun id => decide (id ≠ sessionId)) }

/-- The synchronous prefix of `hydrateSession`, up to the fetch dispatch:
returns the new state and whether an outbound fetch was issued. No-op
(no fetch) when the session is unknown, already hydrated, or already in
the in-flight set. -/
def hydrateStart (st : AppState) (sessionId : Str) : AppState × Bool :=
  match mapLookup st.sessions sessionId with
  | none => (st, false)
  | some r =>
    if r.isHydrated then (st, false)
    else if sessionId ∈ st.hydratingSessions then (st, false)
    else ({ st with hydratingSessions := setInsert st.hydratingSessions sessionId }, true)

/-- The continuation of `hydrateSession` after the fetch resolves: on
success overwrite the session detail (skipping a since-removed session) and
clear the in-flight flag; on failure surface the error and clear the
flag. -/
def hydrateResolve (st : AppState) (sessionId : Str)
    (result : Except Str SessionDetailResponse) : AppState :=
  match result with
  | .ok detail =>
    let sessions2 :=
      match mapLookup st.sessions sessionId with
      | none => st.sessions
      | some existing =>
        mapInsert st.sessions sessionId
          { existing with
            title := detail.session_title.getD existing.title,
            messages := detail.messages.map (fun m => toChatMessage m detail.uploads),
            uploads := detail.uploads,
            lastUpdated := detail.updated_at.getD existing.lastUpdated,
            createdAt := detail.created_at.getD existing.createdAt,
            isHydrated := true }
    { st with
      sessions := sessions2,
      hydratingSessions := st.hydratingSessions.filter (fun id => decide (id ≠ sessionId)) }
  | .error msg =>
    { st with
      error := some msg,
      hydratingSessions := st.hydratingSessions.filter (fun id => decide (id ≠ sessionId)) }

/-!
## Operation sequences over the engine (for the catalog invariant)
-/

/-- One atomic engine step, at the granularity at which the React state is
actually mutated: the optimistic phase and the resolution of a submission
are separate steps, as are the two halves of a hydration. -/
inductive Op where
  | submitBegin (env : SubmitEnv)
  | submitFinishOk (resp : ChatTurnResponse) (orig : Option Str) (now : Str)
  | submitFinishErr (msg : Str)
  | hydrateBegin (id : Str)
  | hydrateFinish (id : Str) (result : Except Str SessionDetailResponse)
  | deleteOp (id : Str) (confirmed : Bool) (net : Except Str Unit)

/-- Apply one engine step. -/
def applyOp (st : AppState) : Op → AppState
  | .submitBegin env =>
    if validationFails st then { st with error := some validationErrorMsg }
    else submitOptimistic st env
  | .submitFinishOk resp orig now =>
    let st2 := ingestResponse st resp orig now
    { st2 with messageInput := [], pendingFiles := [], isSubmitting := false }
  | .submitFinishErr msg => { st with error := some msg, isSubmitting := false }
  | .hydrateBegin id => (hydrateStart st id).1
  | .hydrateFinish id result => hydrateResolve st id result
  | .deleteOp id confirmed net => handleDeleteSession st id confirmed net

/-- The catalog consistency invariant: the ids in the ordering are exactly
the keys of the sessions map. -/
def catalogConsistent (st : AppState) : Prop :=
  ∀ id, id ∈ st.sessionOrder ↔ id ∈ keys st.sessions

/-!
## Claim theorems
-/

/-- Concrete upload artifacts for title-derivation test vectors. -/
def fileA : UploadArtifactDTO :=
  { id := str "u-a", session_id := str "s", message_id := none,
    original_filename := str "a.csv", stored_path := str "/a", mime_type := none,
    size_bytes := none, extraction_status := str "done", extraction_result := none,
    created_at := str "t0" }

def fileB : UploadArtifactDTO :=
  { id := str "u-b", session_id := str "s", message_id := none,
    original_filename := str "b.csv", stored_path := str "/b", mime_type := none,
    size_bytes := none, extraction_status := str "done", extraction_result := none,
    created_at := str "t0" }

theorem trimChars_ne_nil_of_input (s : Str) (h : trimChars s ≠ []) : s ≠ [] := by
  intro hs
  subst hs
  exact h rfl

/-- Claim C10: `deriveSessionTitle` is a pure function returning, for
non-empty trimmed content, its first 48 characters plus an ellipsis when
the trimmed length exceeds 48 and the trimmed content itself otherwise;
for empty trimmed content it returns `"Uploaded {n} file(s)"` with correct
singular/plural for `n > 0` uploads (in particular `"Uploaded 2 files"`)
and `"New conversation"` for zero uploads. -/
theorem deriveSessionTitle_spec :
    (∀ s us, trimChars s ≠ [] →
      deriveSessionTitle (some s) us
        = (trimChars s).take 48
            ++ (if (trimChars s).length > 48 then str "…" else []))
    ∧ (∀ s us, trimChars s ≠ [] → (trimChars s).length ≤ 48 →
      deriveSessionTitle (some s) us = trimChars s)
    ∧ (∀ s us, trimChars s = [] → us ≠ [] →
      deriveSessionTitle (some s) us
        = str "Uploaded " ++ natStr us.length ++ str " file"
            ++ (if us.length > 1 then str "s" else []))
    ∧ deriveSessionTitle (some (List.replicate 60 'A')) []
        = List.replicate 48 'A' ++ str "…"
    ∧ deriveSessionTitle (some []) [fileA, fileB] = str "Uploaded 2 files"
    ∧ deriveSessionTitle (some []) [] = str "New conversation" := by
  have hmain : ∀ s us, trimChars s ≠ [] →
      deriveSessionTitle (some s) us
        = (trimChars s).take 48
            ++ (if (trimChars s).length > 48 then str "…" else []) := by
    intro s us h
    have hs : s ≠ [] := trimChars_ne_nil_of_input s h
    have hlen : (trimChars s).length > 0 := List.length_pos.mpr h
    simp only [deriveSessionTitle, if_pos hs, if_pos hlen]
  refine ⟨hmain, ?_, ?_, ?_, ?_, ?_⟩
  · intro s us h hle
    rw [hmain s us h]
    have : ¬ (trimChars s).length > 48 := by omega
    rw [if_neg this, List.take_of_length_le hle, List.append_nil]
  · intro s us h hus
    have hfc : ∀ c, some s = some c → (if c ≠ [] then
        (if (trimChars c).length > 0 then
          some ((trimChars c).take 48 ++ (if (trimChars c).length > 48 then str "…" else []))
        else none) else none) = none := by
      intro c hc
      cases hc
      by_cases hc0 : s = []
      · simp [hc0]
      · have : ¬ (trimChars s).length > 0 := by
          rw [h]; simp
        simp [hc0, this]
    have hn : us.length > 0 := List.length_pos.mpr hus
    simp only [deriveSessionTitle]
    rw [hfc s rfl]
    simp [if_pos hn]
  · decide
  · decide
  · decide

/-- C10 witness: the plural branch applied at one upload. -/
theorem deriveSessionTitle_spec_witness :
    deriveSessionTitle (some (str "  ")) [fileA] = str "Uploaded 1 file" := by
  have h := deriveSessionTitle_spec.2.2.1 (str "  ") [fileA] (by decide) (by decide)
  rw [h]
  decide

/-- Claim C8: a submission whose trimmed content is empty with no pending
files short-circuits before any network call — the outcome is the same
record for every possible network result `net` (so the network is never
consulted), the validation error is surfaced, and nothing else (no
provisional message, session, catalog or ordering change) happens. -/
theorem handleSubmit_validation (st : AppState) (env : SubmitEnv)
    (net : Except Str ChatTurnResponse) (h : validationFails st) :
    handleSubmit st env net = { st with error := some validationErrorMsg } := by
  unfold handleSubmit
  rw [if_pos h]

/-- C8 witness: whitespace-only input and no files, under an arbitrary
network failure. -/
theorem handleSubmit_validation_witness :
    handleSubmit { emptyAppState with messageInput := str "   " }
        { optimisticMsgId := str "optimistic-8", tempSessionId := str "temp-8",
          optimisticNowIso := str "t8", nowIso := str "t8b", ingestNowIso := str "t8c" }
        (.error (str "unreachable"))
      = { emptyAppState with messageInput := str "   ", error := some validationErrorMsg } :=
  handleSubmit_validation _ _ _ (by constructor <;> decide)

/-- The previously committed messages of the session that `ingestResponse`
resolves as `existing` (empty when the commit targets a fresh session). -/
def committedPrefix (st : AppState) (resp : ChatTurnResponse) (orig : Option Str) :
    List ChatMessage :=
  match ingestExisting st.sessions resp.session_id orig with
  | some e => e.messages.filter (fun m => ! m.pending)
  | none => []

theorem messageBundle_length (resp : ChatTurnResponse) :
    (messageBundle resp).length = 2 + resp.tool_messages.length := by
  simp [messageBundle]
  omega

theorem messageBundle_no_pending (resp : ChatTurnResponse) :
    (messageBundle resp).filter (fun m => m.pending) = [] := by
  simp only [messageBundle, toChatMessage, List.filter_cons, List.filter_append]
  simp [List.filter_eq_nil_iff, List.mem_map]

/-- Claim C1: after `ingestResponse` commits a terminal payload, the target
session holds exactly the previously committed messages followed by the
fresh bundle — user message, tool messages in stream order, assistant
message —, the bundle has length `2 + len(toolMessages)`, and the session
contains zero `pending = true` messages. -/
theorem ingestResponse_commit (st : AppState) (resp : ChatTurnResponse)
    (orig : Option Str) (now : Str) :
    ∃ s, mapLookup (ingestResponse st resp orig now).sessions resp.session_id = some s
      ∧ s.messages
          = committedPrefix st resp orig
            ++ (toChatMessage resp.user_message (userUploadsOf resp)
                :: (resp.tool_messages.map (fun m => toChatMessage m [])
                    ++ [toChatMessage resp.assistant_message []]))
      ∧ s.messages.length
          = (committedPrefix st resp orig).length + (2 + resp.tool_messages.length)
      ∧ s.messages.filter (fun m => m.pending) = [] := by
  refine ⟨ingestNewSession st resp orig now, ?_, ?_, ?_, ?_⟩
  · show mapLookup (mapInsert _ resp.session_id _) resp.session_id = _
    exact mapLookup_mapInsert_self _ _ _
  · show (committedPrefix st resp orig ++ messageBundle resp) = _
    rw [messageBundle]
  · show (committedPrefix st resp orig ++ messageBundle resp).length = _
    rw [List.length_append, messageBundle_length]
  · show (committedPrefix st resp orig ++ messageBundle resp).filter (fun m => m.pending) = []
    rw [List.filter_append, messageBundle_no_pending, List.append_nil]
    unfold committedPrefix
    cases ingestExisting st.sessions resp.session_id orig with
    | none => rfl
    | some e =>
      simp [List.filter_filter]

/-- Concrete inputs exercising a transport-level submission failure. -/
def c3State : AppState := { emptyAppState with messageInput := str "hi" }

def c3Env : SubmitEnv :=
  { optimisticMsgId := str "optimistic-3", tempSessionId := str "temp-3",
    optimisticNowIso := str "t3", nowIso := str "t3b", ingestNowIso := str "t3c" }

/-- Claim C3 counterexample: after a network-error submission from a fresh
state, the error is surfaced but the provisional state is NOT rolled back —
the provisional session is still in the catalog and still holds a
`pending = true` message, contradicting the claimed rollback. -/
theorem submit_network_error_counterexample :
    (handleSubmit c3State c3Env (.error (str "network down"))).error
        = some (str "network down")
      ∧ (mapLookup (handleSubmit c3State c3Env (.error (str "network down"))).sessions
          (str "temp-3")).isSome = true
      ∧ ((mapLookup (handleSubmit c3State c3Env (.error (str "network down"))).sessions
          (str "temp-3")).elim false (fun s => s.messages.any (fun m => m.pending))) = true := by
  refine ⟨?_, ?_, ?_⟩ <;> decide

/-- Claim C3 (amended): a transport-level submission failure surfaces the
error message verbatim, but no rollback happens — the provisional pending
message remains in the target session, and the provisional session remains
in the catalog and at the front of the ordering. -/
theorem submit_network_error_no_rollback (st : AppState) (env : SubmitEnv) (msg : Str)
    (hval : ¬ validationFails st) :
    (handleSubmit st env (.error msg)).error = some msg
      ∧ (∃ s, mapLookup (handleSubmit st env (.error msg)).sessions
            (provisionalSessionId st env) = some s
          ∧ optimisticMessage st env ∈ s.messages
          ∧ (optimisticMessage st env).pending = true)
      ∧ (handleSubmit st env (.error msg)).sessionOrder.head?
          = some (provisionalSessionId st env) := by
  have hst : handleSubmit st env (.error msg)
      = { submitOptimistic st env with error := some msg, isSubmitting := false } := by
    unfold handleSubmit
    rw [if_neg hval]
  refine ⟨by rw [hst], ?_, by rw [hst]; rfl⟩
  rw [hst]
  show ∃ s, mapLookup (submitOptimistic st env).sessions (provisionalSessionId st env)
      = some s ∧ _
  unfold submitOptimistic
  cases hlook : mapLookup st.sessions (provisionalSessionId st env) with
  | some existing =>
    simp only [hlook]
    refine ⟨_, mapLookup_mapInsert_self _ _ _, ?_, rfl⟩
    simp
  | none =>
    simp only [hlook]
    refine ⟨_, mapLookup_mapInsert_self _ _ _, ?_, rfl⟩
    simp [provisionalSession]

/-- C3 amended witness: the no-rollback behaviour at the concrete failing
submission. -/
theorem submit_network_error_no_rollback_witness :
    (handleSubmit c3State c3Env (.error (str "boom"))).error = some (str "boom")
      ∧ (∃ s, mapLookup (handleSubmit c3State c3Env (.error (str "boom"))).sessions
            (provisionalSessionId c3State c3Env) = some s
          ∧ optimisticMessage c3State c3Env ∈ s.messages
          ∧ (optimisticMessage c3State c3Env).pending = true)
      ∧ (handleSubmit c3State c3Env (.error (str "boom"))).sessionOrder.head?
          = some (provisionalSessionId c3State c3Env) :=
  submit_network_error_no_rollback c3State c3Env (str "boom")
    (by intro h; exact absurd h.1 (by decide))

/-- Concrete terminal payload for the stale-commit scenario. -/
def c4Resp : ChatTurnResponse :=
  { session_id := str "sess-1", created_new_session := false, session_title := none,
    user_message :=
      { id := str "m-u", role := .user, content := some (str "question"),
        raw_payload := none, sequence_index := 0, created_at := str "t4" },
    assistant_message :=
      { id := str "m-a", role := .assistant, content := some (str "answer"),
        raw_payload := none, sequence_index := 1, created_at := str "t4" },
    tool_messages := [], uploads := [], forecast_job_id := none,
    chronos_response := none }

/-- Claim C4 counterexample: committing a late terminal result whose target
session (and provisional predecessor) is absent from the catalog — the
deleted-session scenario — re-creates the session: `ingestResponse`
performs no existence check. -/
theorem ingest_stale_commit_counterexample :
    mapLookup emptyAppState.sessions (str "sess-1") = none
      ∧ mapLookup emptyAppState.sessions (str "ghost") = none
      ∧ (mapLookup (ingestResponse emptyAppState c4Resp (some (str "ghost"))
          (str "t4c")).sessions (str "sess-1")).isSome = true
      ∧ (str "sess-1")
          ∈ (ingestResponse emptyAppState c4Resp (some (str "ghost"))
              (str "t4c")).sessionOrder := by
  refine ⟨rfl, rfl, ?_, ?_⟩ <;> decide

/-- Claim C4 (amended): the commit step performs no existence check — even
when neither the canonical session id nor its provisional predecessor is
present in the catalog, `ingestResponse` unconditionally writes a fresh
session (holding exactly the response bundle), so a session deleted while
its submission was streaming is re-created by the late result. -/
theorem ingest_unconditional_write (st : AppState) (resp : ChatTurnResponse)
    (orig : Option Str) (now : Str)
    (h1 : mapLookup st.sessions resp.session_id = none)
    (h2 : ingestOriginal st.sessions orig = none) :
    ∃ s, mapLookup (ingestResponse st resp orig now).sessions resp.session_id = some s
      ∧ s.messages = messageBundle resp
      ∧ s.createdAt = now := by
  have hafter : mapLookup (ingestAfterDelete st.sessions resp.session_id orig)
      resp.session_id = none := by
    unfold ingestAfterDelete
    cases orig with
    | none => exact h1
    | some o =>
      show mapLookup (if o ≠ [] ∧ o ≠ resp.session_id then mapErase st.sessions o
        else st.sessions) resp.session_id = none
      by_cases hcond : o ≠ [] ∧ o ≠ resp.session_id
      · rw [if_pos hcond, mapLookup_mapErase]
        have hne : ¬ resp.session_id = o := fun hh => hcond.2 hh.symm
        rw [if_neg hne, h1]
      · rw [if_neg hcond]
        exact h1
  have hex : ingestExisting st.sessions resp.session_id orig = none := by
    unfold ingestExisting
    rw [hafter]
    simpa using h2
  refine ⟨ingestNewSession st resp orig now, ?_, ?_, ?_⟩
  · show mapLookup (mapInsert _ resp.session_id _) resp.session_id = _
    exact mapLookup_mapInsert_self _ _ _
  · show (match ingestExisting st.sessions resp.session_id orig with
      | some e => e.messages.filter (fun m => ! m.pending)
      | none => []) ++ messageBundle resp = messageBundle resp
    rw [hex, List.nil_append]
  · show (match ingestExisting st.sessions resp.session_id orig with
      | some e => e.createdAt
      | none => now) = now
    rw [hex]

/-- C4 amended witness: the unconditional write at the concrete stale
commit. -/
theorem ingest_unconditional_write_witness :
    ∃ s, mapLookup (ingestResponse emptyAppState c4Resp (some (str "ghost"))
          (str "t4c")).sessions (str "sess-1") = some s
      ∧ s.messages = messageBundle c4Resp
      ∧ s.createdAt = str "t4c" :=
  ingest_unconditional_write emptyAppState c4Resp (some (str "ghost")) (str "t4c")
    rfl rfl

theorem mapErase_mapInsert {α : Type} (m : List (Str × α)) (k : Str) (v : α) :
    mapErase (mapInsert m k v) k = mapErase m k := by
  simp [mapErase, mapInsert, List.filter_append, List.filter_filter]

/-- Claim C2: a successful submission started with no pre-selected session,
whose provisional id is fresh and whose server-assigned id is a new
session id distinct from it, leaves the catalog with exactly one new entry
keyed by the server id, no entry (in the map or the ordering) under the
provisional id, and the provisional session's state migrated to the new
key (its `createdAt` preserved, its pending message replaced by the
committed bundle). -/
theorem submit_new_session_migration (st : AppState) (env : SubmitEnv)
    (resp : ChatTurnResponse)
    (hsel : st.selectedSessionId = none)
    (hval : ¬ validationFails st)
    (htemp : mapLookup st.sessions env.tempSessionId = none)
    (hsid : mapLookup st.sessions resp.session_id = none)
    (hne : resp.session_id ≠ env.tempSessionId)
    (htne : env.tempSessionId ≠ []) :
    mapLookup (handleSubmit st env (.ok resp)).sessions env.tempSessionId = none
      ∧ env.tempSessionId ∉ (handleSubmit st env (.ok resp)).sessionOrder
      ∧ keys (handleSubmit st env (.ok resp)).sessions
          = keys st.sessions ++ [resp.session_id]
      ∧ (∃ s, mapLookup (handleSubmit st env (.ok resp)).sessions resp.session_id
            = some s
          ∧ s.createdAt = env.nowIso
          ∧ s.messages = messageBundle resp) := by
  have hpid : provisionalSessionId st env = env.tempSessionId := by
    unfold provisionalSessionId
    rw [hsel]
    rfl
  set temp := env.tempSessionId with htempdef
  set sid := resp.session_id with hsiddef
  have hst1 : submitOptimistic st env =
      { st with
        sessions := mapInsert st.sessions temp (provisionalSession st env),
        sessionOrder := temp :: st.sessionOrder.filter (fun id => decide (id ≠ temp)),
        selectedSessionId := some temp,
        isSubmitting := true,
        error := none } := by
    unfold submitOptimistic
    rw [hpid]
    simp only [htemp, hsel]
  have hsub : handleSubmit st env (.ok resp)
      = { ingestResponse (submitOptimistic st env) resp (some temp) env.ingestNowIso with
          messageInput := [], pendingFiles := [], isSubmitting := false } := by
    unfold handleSubmit
    rw [if_neg hval, hpid]
  have hcond : temp ≠ [] ∧ temp ≠ sid := ⟨htne, fun h => hne h.symm⟩
  have hafter : ingestAfterDelete (submitOptimistic st env).sessions sid (some temp)
      = st.sessions := by
    unfold ingestAfterDelete
    simp only [if_pos hcond]
    rw [hst1]
    show mapErase (mapInsert st.sessions temp (provisionalSession st env)) temp = _
    rw [mapErase_mapInsert, mapErase_of_not_mem _ _ htemp]
  have hexist : ingestExisting (submitOptimistic st env).sessions sid (some temp)
      = some (provisionalSession st env) := by
    unfold ingestExisting
    rw [hafter, hsid]
    show ingestOriginal (submitOptimistic st env).sessions (some temp) = _
    unfold ingestOriginal
    simp only [if_pos htne]
    rw [hst1]
    exact mapLookup_mapInsert_self _ _ _
  have hsessions : (handleSubmit st env (.ok resp)).sessions
      = mapInsert st.sessions sid
          (ingestNewSession (submitOptimistic st env) resp (some temp) env.ingestNowIso) := by
    rw [hsub]
    show mapInsert (ingestAfterDelete (submitOptimistic st env).sessions sid (some temp))
        sid _ = _
    rw [hafter]
  refine ⟨?_, ?_, ?_, ?_⟩
  · rw [hsessions, mapLookup_mapInsert_ne _ _ _ _ (fun h => hne h.symm)]
    exact htemp
  · rw [hsub]
    show temp ∉ sid :: (submitOptimistic st env).sessionOrder.filter _
    intro hmem
    rcases List.mem_cons.mp hmem with h | h
    · exact hne h.symm
    · have := (List.mem_filter.mp h).2
      simp at this
  · rw [hsessions, keys_mapInsert_of_not_mem _ _ _ hsid]
  · refine ⟨_, by rw [hsessions]; exact mapLookup_mapInsert_self _ _ _, ?_, ?_⟩
    · show (match ingestExisting (submitOptimistic st env).sessions sid (some temp) with
        | some e => e.createdAt
        | none => env.ingestNowIso) = env.nowIso
      rw [hexist]
      rfl
    · show (match ingestExisting (submitOptimistic st env).sessions sid (some temp) with
        | some e => e.messages.filter (fun m => ! m.pending)
        | none => []) ++ messageBundle resp = messageBundle resp
      rw [hexist]
      show ([optimisticMessage st env].filter (fun m => ! m.pending))
          ++ messageBundle resp = messageBundle resp
      have hpend : (optimisticMessage st env).pending = true := rfl
      simp [List.filter_cons, hpend]

/-- Concrete inputs for a first-submission (no selected session) success. -/
def c2State : AppState := { emptyAppState with messageInput := str "hello" }

def c2Env : SubmitEnv :=
  { optimisticMsgId := str "optimistic-2", tempSessionId := str "temp-2",
    optimisticNowIso := str "t2a", nowIso := str "t2b", ingestNowIso := str "t2c" }

def c2Resp : ChatTurnResponse :=
  { session_id := str "srv-1", created_new_session := true,
    session_title := some (str "Hello thread"),
    user_message :=
      { id := str "m-u2", role := .user, content := some (str "hello"),
        raw_payload := none, sequence_index := 0, created_at := str "t2d" },
    assistant_message :=
      { id := str "m-a2", role := .assistant, content := some (str "hi there"),
        raw_payload := none, sequence_index := 1, created_at := str "t2d" },
    tool_messages := [], uploads := [], forecast_job_id := none,
    chronos_response := none }

/-- C2 witness: the migration at a concrete first submission. -/
theorem submit_new_session_migration_witness :
    mapLookup (handleSubmit c2State c2Env (.ok c2Resp)).sessions (str "temp-2") = none
      ∧ (str "temp-2") ∉ (handleSubmit c2State c2Env (.ok c2Resp)).sessionOrder
      ∧ keys (handleSubmit c2State c2Env (.ok c2Resp)).sessions
          = keys c2State.sessions ++ [str "srv-1"]
      ∧ (∃ s, mapLookup (handleSubmit c2State c2Env (.ok c2Resp)).sessions (str "srv-1")
            = some s
          ∧ s.createdAt = str "t2b"
          ∧ s.messages = messageBundle c2Resp) :=
  submit_new_session_migration c2State c2Env c2Resp rfl
    (fun h => absurd h.1 (by decide)) rfl rfl (by decide) (by decide)

/-- `hydrateSession`'s guard: an in-flight id never refetches. -/
theorem hydrateStart_of_inflight (st : AppState) (id : Str)
    (h : id ∈ st.hydratingSessions) : hydrateStart st id = (st, false) := by
  unfold hydrateStart
  cases hlook : mapLookup st.sessions id with
  | none => rfl
  | some r =>
    simp only [hlook]
    by_cases hhyd : r.isHydrated
    · rw [if_pos hhyd]
    · rw [if_neg hhyd, if_pos h]

/-- `hydrateSession` issues a fetch exactly when the session exists, is not
hydrated, and is not in flight. -/
theorem hydrateStart_fetches (st : AppState) (id : Str) (r : ChatSession)
    (hr : mapLookup st.sessions id = some r)
    (hnh : r.isHydrated = false) (hin : id ∉ st.hydratingSessions) :
    hydrateStart st id
      = ({ st with hydratingSessions := setInsert st.hydratingSessions id }, true) := by
  unfold hydrateStart
  simp only [hr]
  simp [hnh, hin]

/-- Claim C9: hydration is idempotent and deduplicated — a second
`hydrate(id)` issued while the first is still in flight is a no-op (so
exactly one outbound fetch happens), an already-hydrated or in-flight id
never fetches, and after a failed hydration the session is untouched
(still unhydrated), the in-flight flag is cleared, and a retry fetches
again. -/
theorem hydrate_single_fetch_and_retry :
    (∀ st id st1, hydrateStart st id = (st1, true) → hydrateStart st1 id = (st1, false))
    ∧ (∀ st id r, mapLookup st.sessions id = some r → r.isHydrated = true →
        hydrateStart st id = (st, false))
    ∧ (∀ st id, id ∈ st.hydratingSessions → hydrateStart st id = (st, false))
    ∧ (∀ st id msg,
        (hydrateResolve st id (.error msg)).sessions = st.sessions
        ∧ id ∉ (hydrateResolve st id (.error msg)).hydratingSessions
        ∧ (∀ r, mapLookup st.sessions id = some r → r.isHydrated = false →
            (hydrateStart (hydrateResolve st id (.error msg)) id).2 = true)) := by
  refine ⟨?_, ?_, ?_, ?_⟩
  · intro st id st1 h
    unfold hydrateStart at h
    cases hlook : mapLookup st.sessions id with
    | none => rw [hlook] at h; simp at h
    | some r =>
      simp only [hlook] at h
      by_cases hhyd : r.isHydrated
      · rw [if_pos hhyd] at h; simp at h
      · rw [if_neg hhyd] at h
        by_cases hin : id ∈ st.hydratingSessions
        · rw [if_pos hin] at h; simp at h
        · rw [if_neg hin] at h
          have hst1 : st1
              = { st with hydratingSessions := setInsert st.hydratingSessions id } :=
            (congrArg Prod.fst h).symm
          refine hydrateStart_of_inflight st1 id ?_
          rw [hst1]
          show id ∈ setInsert st.hydratingSessions id
          exact (mem_setInsert _ _ _).mpr (Or.inl rfl)
  · intro st id r hr hhyd
    unfold hydrateStart
    simp only [hr]
    simp [hhyd]
  · exact hydrateStart_of_inflight
  · intro st id msg
    refine ⟨rfl, ?_, ?_⟩
    · show id ∉ st.hydratingSessions.filter (fun i => decide (i ≠ id))
      intro hmem
      have := (List.mem_filter.mp hmem).2
      simp at this
    · intro r hr hnh
      have hsess : (hydrateResolve st id (.error msg)).sessions = st.sessions := rfl
      have hin : id ∉ (hydrateResolve st id (.error msg)).hydratingSessions := by
        show id ∉ st.hydratingSessions.filter (fun i => decide (i ≠ id))
        intro hmem
        have := (List.mem_filter.mp hmem).2
        simp at this
      rw [hydrateStart_fetches (hydrateResolve st id (.error msg)) id r
        (by rw [hsess]; exact hr) hnh hin]

/-- Concrete session and state for exercising the hydration guards. -/
def c9Session : ChatSession :=
  { id := str "h-1", title := str "Hydrate me", messages := [], uploads := [],
    chronosResponse := none, forecastJobId := none, lastUpdated := str "t9",
    createdAt := str "t9", isHydrated := false }

def c9State : AppState :=
  { emptyAppState with sessions := [(str "h-1", c9Session)], sessionOrder := [str "h-1"] }

/-- C9 witness: the second of two back-to-back `hydrate` calls for the same
id is a no-op, at a concrete state. -/
theorem hydrate_single_fetch_and_retry_witness :
    hydrateStart (hydrateStart c9State (str "h-1")).1 (str "h-1")
      = ((hydrateStart c9State (str "h-1")).1, false) :=
  hydrate_single_fetch_and_retry.1 c9State (str "h-1")
    (hydrateStart c9State (str "h-1")).1 (by decide)

theorem mem_keys_of_mapLookup {α : Type} (m : List (Str × α)) (k : Str) (v : α)
    (h : mapLookup m k = some v) : k ∈ keys m := by
  induction m with
  | nil => simp [mapLookup] at h
  | cons p rest ih =>
    by_cases hp : p.1 = k
    · show k ∈ p.1 :: keys rest
      exact List.mem_cons.mpr (Or.inl hp.symm)
    · simp only [mapLookup, if_neg hp] at h
      show k ∈ p.1 :: keys rest
      exact List.mem_cons.mpr (Or.inr (ih h))

theorem mem_cons_filter_ne (l : List Str) (k a : Str) :
    a ∈ k :: l.filter (fun i => decide (i ≠ k)) ↔ a = k ∨ a ∈ l := by
  by_cases hak : a = k
  · subst hak
    simp
  · simp [List.mem_cons, List.mem_filter, hak]

/-- An id is well formed when non-empty; the engine only ever passes
non-empty ids as a submission's provisional predecessor (they are either a
selected catalog id or a minted `temp-${Date.now()}`). -/
abbrev opWellFormed : Op → Prop
  | .submitFinishOk _ orig _ => orig ≠ some []
  | _ => True

theorem mem_keys_submitOptimistic (st : AppState) (env : SubmitEnv) (a : Str) :
    a ∈ keys (submitOptimistic st env).sessions ↔
      a = provisionalSessionId st env ∨ a ∈ keys st.sessions := by
  unfold submitOptimistic
  cases hlook : mapLookup st.sessions (provisionalSessionId st env) with
  | some existing =>
    simp only [hlook]
    exact mem_keys_mapInsert _ _ _ _
  | none =>
    simp only [hlook]
    exact mem_keys_mapInsert _ _ _ _

theorem mem_keys_hydrateResolve_ok (st : AppState) (id2 : Str)
    (detail : SessionDetailResponse) (a : Str) :
    a ∈ keys (hydrateResolve st id2 (.ok detail)).sessions ↔ a ∈ keys st.sessions := by
  unfold hydrateResolve
  cases hlook : mapLookup st.sessions id2 with
  | none =>
    simp only [hlook]
  | some existing =>
    simp only [hlook]
    rw [mem_keys_mapInsert]
    constructor
    · rintro (rfl | hk)
      · exact mem_keys_of_mapLookup _ _ _ hlook
      · exact hk
    · exact Or.inr

theorem applyOp_catalogConsistent (st : AppState) (op : Op)
    (hwf : opWellFormed op) (h : catalogConsistent st) :
    catalogConsistent (applyOp st op) := by
  cases op with
  | submitBegin env =>
    show catalogConsistent (if validationFails st then _ else submitOptimistic st env)
    by_cases hv : validationFails st
    · rw [if_pos hv]
      exact h
    · rw [if_neg hv]
      intro id
      have horder : (submitOptimistic st env).sessionOrder
          = provisionalSessionId st env ::
              st.sessionOrder.filter
                (fun i => decide (i ≠ provisionalSessionId st env)) := rfl
      rw [horder, mem_cons_filter_ne, mem_keys_submitOptimistic]
      exact or_congr Iff.rfl (h id)
  | submitFinishOk resp orig now =>
    intro id
    show id ∈ (ingestResponse st resp orig now).sessionOrder
      ↔ id ∈ keys (ingestResponse st resp orig now).sessions
    unfold ingestResponse
    rw [mem_keys_mapInsert]
    cases orig with
    | none =>
      show id ∈ resp.session_id ::
          st.sessionOrder.filter (fun i => decide (i ≠ resp.session_id) && true) ↔ _
      simp only [Bool.and_true]
      rw [mem_cons_filter_ne]
      show _ ↔ id = resp.session_id ∨ id ∈ keys st.sessions
      exact or_congr Iff.rfl (h id)
    | some o =>
      have ho : o ≠ [] := fun hnil => hwf (by rw [hnil])
      show id ∈ resp.session_id ::
          st.sessionOrder.filter
            (fun i => decide (i ≠ resp.session_id) && decide (i ≠ o)) ↔
        id = resp.session_id ∨
          id ∈ keys (ingestAfterDelete st.sessions resp.session_id (some o))
      by_cases hsid : id = resp.session_id
      · subst hsid
        simp
      · constructor
        · intro hmem
          rcases List.mem_cons.mp hmem with hcase | hcase
          · exact absurd hcase hsid
          · have hm := List.mem_filter.mp hcase
            have hio : id ≠ o := by
              have := hm.2
              simp at this
              exact this.2
            refine Or.inr ?_
            show id ∈ keys (if o ≠ [] ∧ o ≠ resp.session_id then mapErase st.sessions o
              else st.sessions)
            by_cases hcond : o ≠ [] ∧ o ≠ resp.session_id
            · rw [if_pos hcond, mem_keys_mapErase]
              exact ⟨(h id).mp hm.1, hio⟩
            · rw [if_neg hcond]
              exact (h id).mp hm.1
        · rintro (hcase | hcase)
          · exact absurd hcase hsid
          · have hmem : id ∈ keys st.sessions ∧ id ≠ o := by
              revert hcase
              show id ∈ keys (if o ≠ [] ∧ o ≠ resp.session_id then mapErase st.sessions o
                else st.sessions) → _
              by_cases hcond : o ≠ [] ∧ o ≠ resp.session_id
              · rw [if_pos hcond, mem_keys_mapErase]
                exact fun x => x
              · rw [if_neg hcond]
                intro hk
                by_cases hio : id = o
                · have hosid : o = resp.session_id := by
                    by_contra hos
                    exact hcond ⟨ho, hos⟩
                  exact absurd (hio.trans hosid) hsid
                · exact ⟨hk, hio⟩
            refine List.mem_cons.mpr
              (Or.inr (List.mem_filter.mpr ⟨(h id).mpr hmem.1, ?_⟩))
            simp [hsid, hmem.2]
  | submitFinishErr msg => exact h
  | hydrateBegin id2 =>
    show catalogConsistent (hydrateStart st id2).1
    unfold hydrateStart
    cases hlook : mapLookup st.sessions id2 with
    | none => exact h
    | some r =>
      by_cases hhyd : r.isHydrated
      · simp only [hlook, if_pos hhyd]
        exact h
      · by_cases hin : id2 ∈ st.hydratingSessions
        · simp only [hlook, if_neg hhyd, if_pos hin]
          exact h
        · simp only [hlook, if_neg hhyd, if_neg hin]
          exact h
  | hydrateFinish id2 result =>
    show catalogConsistent (hydrateResolve st id2 result)
    cases result with
    | error msg => exact h
    | ok detail =>
      intro id
      have horder : (hydrateResolve st id2 (.ok detail)).sessionOrder
          = st.sessionOrder := rfl
      rw [horder, mem_keys_hydrateResolve_ok]
      exact h id
  | deleteOp id2 confirmed net =>
    show catalogConsistent (handleDeleteSession st id2 confirmed net)
    unfold handleDeleteSession
    by_cases hnil : id2 = []
    · rw [if_pos hnil]
      exact h
    · rw [if_neg hnil]
      by_cases hconf : confirmed
      · rw [if_neg (by simpa using hconf)]
        cases net with
        | ok u =>
          intro id
          show id ∈ st.sessionOrder.filter (fun i => decide (i ≠ id2)) ↔
            id ∈ keys (mapErase st.sessions id2)
          rw [mem_keys_mapErase]
          simp only [List.mem_filter, decide_eq_true_eq]
          exact and_congr (h id) Iff.rfl
        | error msg => exact h
      · rw [if_pos (by simpa using hconf)]
        exact h

/-- Claim C5: along any finite sequence of submit / hydrate / delete steps
(each with well-formed ids), the set of session ids in the catalog
ordering stays exactly the set of keys of the sessions map — no orphaned
order entries, none missing. -/
theorem ops_preserve_catalogConsistent (ops : List Op) (st : AppState)
    (hwf : ∀ op ∈ ops, opWellFormed op) (h : catalogConsistent st) :
    catalogConsistent (ops.foldl applyOp st) := by
  induction ops generalizing st with
  | nil => exact h
  | cons op rest ih =>
    rw [List.foldl_cons]
    exact ih (applyOp st op)
      (fun o ho => hwf o (List.mem_cons.mpr (Or.inr ho)))
      (applyOp_catalogConsistent st op (hwf op (List.mem_cons.mpr (Or.inl rfl))) h)

/-- C5 witness: a concrete submit–hydrate–delete trace from the empty
state. -/
theorem ops_preserve_catalogConsistent_witness :
    catalogConsistent
      (([Op.submitBegin c2Env,
         Op.submitFinishOk c2Resp (some (str "temp-2")) (str "t2c"),
         Op.hydrateBegin (str "srv-1"),
         Op.hydrateFinish (str "srv-1") (.error (str "offline")),
         Op.deleteOp (str "srv-1") true (.ok ())].foldl applyOp
        { emptyAppState with messageInput := str "hello" })) :=
  ops_preserve_catalogConsistent _ _
    (by
      intro op hop
      fin_cases hop <;> decide)
    (fun id => Iff.rfl)

/-- Claim C7: the stream decoder is invariant under re-chunking — decoding
any list of chunks produces exactly the same decoder state (same buffered
remainder, same callback events in the same order, same final payload),
and hence the same call result, as decoding the whole concatenated stream
delivered as a single chunk. -/
theorem stream_rechunk_invariance (jp : Str → Option Json) (chunks : List Str) :
    decodeChunks jp chunks = decodeChunks jp [chunks.flatten]
      ∧ submitDecode jp chunks = submitDecode jp [chunks.flatten] := by
  refine ⟨decodeChunks_flatten jp chunks, ?_⟩
  unfold submitDecode
  rw [decodeChunks_flatten jp chunks]

/-- Claim C6: `submitChatMessage` returns the payload of the last decoded
`result` frame; it fails — and fails only — with `StreamIncomplete` when
the stream ends with no `result` frame decoded, and a frame whose body
`JSON.parse` rejects is skipped without any effect on the decoder state
(malformed frames are not fatal). -/
theorem submit_result_or_incomplete (jp : Str → Option Json) (chunks : List Str) :
    (submitDecode jp chunks = .error .streamIncomplete
      ↔ lastPayload jp (processedSegments chunks) = none)
    ∧ (∀ p, lastPayload jp (processedSegments chunks) = some p →
        submitDecode jp chunks = .ok p)
    ∧ (∀ st seg, jp (trimChars ((trimChars seg).drop 5)) = none →
        processSegment jp st seg = st) := by
  refine ⟨?_, ?_, ?_⟩
  · unfold submitDecode
    rw [decodeChunks_finalPayload]
    cases lastPayload jp (processedSegments chunks) with
    | none => simp
    | some p => simp
  · intro p hp
    unfold submitDecode
    rw [decodeChunks_finalPayload, hp]
  · intro st seg hjp
    simp only [processSegment]
    split
    · split
      · rfl
      · rw [hjp]
    · rfl

/-- Concrete parse function and stream for the decoder witnesses: `R`
parses to a `result` event carrying the payload `7`, `P` to a `progress`
event, anything else fails to parse. -/
def jpC6 : Str → Option Json :=
  fun s =>
    if s = str "R" then
      some (.obj [(str "type", .str (str "result")), (str "payload", .num 7)])
    else if s = str "P" then
      some (.obj [(str "type", .str (str "progress")), (str "step", .str (str "structuring"))])
    else none

/-- C6 witness: on a stream with a progress frame, a malformed frame and a
result frame, the call returns the result payload. -/
theorem submit_result_or_incomplete_witness :
    submitDecode jpC6 [str "data: P\n\ndata: oops\n\ndata: R\n\n"] = .ok (.num 7) :=
  (submit_result_or_incomplete jpC6 [str "data: P\n\ndata: oops\n\ndata: R\n\n"]).2.1
    (.num 7) rfl

end ForecasterChat
